import Mathlib

/-!
Verification of the ktx KTX texture-container codec.

Shallow embedding of the crate's modules over byte lists (`List Nat`,
each entry a byte value):

* header.rs — `KtxHeader`, `KtxHeader.new`, `KtxHeader.write`
* lib.rs    — borrowed-view accessor `lib.Ktx` and its level iterator
* slice.rs  — Deref-based accessor `slice.Ktx`, `Texture`, its level iterator
* read.rs   — streaming accessor `read.Textures` over a forward-only byte stream
* write.rs  — `KtxBuilder.to_vec`

Machine integers are modelled as `Nat` with explicit `% 2^32` where u32
overflow matters; `debug_assert` failures and fallible construction are
modelled with `Option`; `io::Read` primitives are modelled over a remaining
byte list, `read_exact` returning `Except`.
-/

set_option maxRecDepth 10000

/-- Fixed 12-byte KTX magic identifier (header.rs KTX_IDENTIFIER). -/
def KTX_IDENTIFIER : List Nat :=
  [0xAB, 0x4B, 0x54, 0x58, 0x20, 0x31, 0x31, 0xBB, 0x0D, 0x0A, 0x1A, 0x0A]

/-- Reads a 32-bit unsigned value from the first four bytes of a byte list,
big- or little-endian (byteorder read_u32). Positions past the end read as 0;
in the Rust source such reads are slice-bounds panics, outside this model. -/
def readU32 (be : Bool) (l : List Nat) : Nat :=
  if be then
    l.getD 0 0 * 16777216 + l.getD 1 0 * 65536 + l.getD 2 0 * 256 + l.getD 3 0
  else
    l.getD 0 0 + l.getD 1 0 * 256 + l.getD 2 0 * 65536 + l.getD 3 0 * 16777216

/-- Writes a 32-bit unsigned value as its four bytes, big- or little-endian
(byteorder write_u32). -/
def writeU32 (be : Bool) (v : Nat) : List Nat :=
  if be then [v / 16777216 % 256, v / 65536 % 256, v / 256 % 256, v % 256]
  else [v % 256, v / 256 % 256, v / 65536 % 256, v / 16777216 % 256]

/-- Contiguous byte range `[a, b)` of a byte list, the functional rendering of
a Rust slice index `l[a..b]` (out-of-range clamps; in Rust it panics). -/
def subrange (l : List Nat) (a b : Nat) : List Nat :=
  (l.drop a).take (b - a)

/-- KTX header record (header.rs `KtxHeader`): derived big-endian flag plus
the twelve u32 fields. -/
structure KtxHeader where
  big_endian : Bool
  gl_type : Nat
  gl_type_size : Nat
  gl_format : Nat
  gl_internal_format : Nat
  gl_base_internal_format : Nat
  pixel_width : Nat
  pixel_height : Nat
  pixel_depth : Nat
  array_elements : Nat
  faces : Nat
  mipmap_levels : Nat
  bytes_of_key_value_data : Nat
deriving DecidableEq, Repr

/-- All twelve integer fields fit in a u32 (implicit in the Rust types). -/
def KtxHeader.wf (h : KtxHeader) : Prop :=
  h.gl_type < 4294967296 ∧ h.gl_type_size < 4294967296 ∧
  h.gl_format < 4294967296 ∧ h.gl_internal_format < 4294967296 ∧
  h.gl_base_internal_format < 4294967296 ∧ h.pixel_width < 4294967296 ∧
  h.pixel_height < 4294967296 ∧ h.pixel_depth < 4294967296 ∧
  h.array_elements < 4294967296 ∧ h.faces < 4294967296 ∧
  h.mipmap_levels < 4294967296 ∧ h.bytes_of_key_value_data < 4294967296

instance (h : KtxHeader) : Decidable h.wf := by
  unfold KtxHeader.wf; infer_instance

/-- Header parse, `KtxHeader::new` (header.rs, lines 107-135). The two
debug_assert guards (length at least 64, magic identifier) are modelled as
`none`; endianness derives from byte 12; the twelve u32 fields are decoded
from bytes [16, 64) in that endianness. -/
def KtxHeader.new (first_64_bytes : List Nat) : Option KtxHeader :=
  if first_64_bytes.length < 64 then none
  else if first_64_bytes.take 12 ≠ KTX_IDENTIFIER then none
  else
    let big_endian := first_64_bytes.getD 12 0 == 4
    some { big_endian := big_endian
           gl_type := readU32 big_endian (first_64_bytes.drop 16)
           gl_type_size := readU32 big_endian (first_64_bytes.drop 20)
           gl_format := readU32 big_endian (first_64_bytes.drop 24)
           gl_internal_format := readU32 big_endian (first_64_bytes.drop 28)
           gl_base_internal_format := readU32 big_endian (first_64_bytes.drop 32)
           pixel_width := readU32 big_endian (first_64_bytes.drop 36)
           pixel_height := readU32 big_endian (first_64_bytes.drop 40)
           pixel_depth := readU32 big_endian (first_64_bytes.drop 44)
           array_elements := readU32 big_endian (first_64_bytes.drop 48)
           faces := readU32 big_endian (first_64_bytes.drop 52)
           mipmap_levels := readU32 big_endian (first_64_bytes.drop 56)
           bytes_of_key_value_data := readU32 big_endian (first_64_bytes.drop 60) }

/-- Header serialization, `KtxHeader::write` (header.rs, lines 137-170): the
64 bytes written into the front of the output buffer — magic identifier, then
thirteen u32 values (sentinel 0x04030201 then the twelve fields) in the
header's own endianness. -/
def KtxHeader.write (h : KtxHeader) : List Nat :=
  KTX_IDENTIFIER
    ++ writeU32 h.big_endian 0x04030201
    ++ writeU32 h.big_endian h.gl_type
    ++ writeU32 h.big_endian h.gl_type_size
    ++ writeU32 h.big_endian h.gl_format
    ++ writeU32 h.big_endian h.gl_internal_format
    ++ writeU32 h.big_endian h.gl_base_internal_format
    ++ writeU32 h.big_endian h.pixel_width
    ++ writeU32 h.big_endian h.pixel_height
    ++ writeU32 h.big_endian h.pixel_depth
    ++ writeU32 h.big_endian h.array_elements
    ++ writeU32 h.big_endian h.faces
    ++ writeU32 h.big_endian h.mipmap_levels
    ++ writeU32 h.big_endian h.bytes_of_key_value_data

namespace lib

/-- Borrowed-view container (lib.rs `Ktx`): the thirteen parsed header fields
inline plus the texture data tail, data[64 + kv_len ..]. -/
structure Ktx where
  big_endian : Bool
  gl_type : Nat
  gl_type_size : Nat
  gl_format : Nat
  gl_internal_format : Nat
  gl_base_internal_format : Nat
  pixel_width : Nat
  pixel_height : Nat
  pixel_depth : Nat
  array_elements : Nat
  faces : Nat
  mipmap_levels : Nat
  bytes_of_key_value_data : Nat
  texture_data : List Nat
deriving DecidableEq, Repr

/-- Parse, `Ktx::new` (lib.rs, lines 62-94). The magic debug_assert and the
slice index data[16..64] (a panic on buffers shorter than 64) are modelled as
`none`; otherwise the same field decode as KtxHeader.new, and the texture
data starts at 64 + kv_len. -/
def Ktx.new (data : List Nat) : Option Ktx :=
  if data.length < 64 then none
  else if data.take 12 ≠ KTX_IDENTIFIER then none
  else
    let big_endian := data.getD 12 0 == 4
    let kv_len := readU32 big_endian (data.drop 60)
    some { big_endian := big_endian
           gl_type := readU32 big_endian (data.drop 16)
           gl_type_size := readU32 big_endian (data.drop 20)
           gl_format := readU32 big_endian (data.drop 24)
           gl_internal_format := readU32 big_endian (data.drop 28)
           gl_base_internal_format := readU32 big_endian (data.drop 32)
           pixel_width := readU32 big_endian (data.drop 36)
           pixel_height := readU32 big_endian (data.drop 40)
           pixel_depth := readU32 big_endian (data.drop 44)
           array_elements := readU32 big_endian (data.drop 48)
           faces := readU32 big_endian (data.drop 52)
           mipmap_levels := readU32 big_endian (data.drop 56)
           bytes_of_key_value_data := kv_len
           texture_data := data.drop (64 + kv_len) }

/-- Level iterator state (lib.rs `Textures`). -/
structure Textures where
  parent : Ktx
  next_level : Nat
  level_end : Nat
deriving DecidableEq, Repr

/-- lib.rs `Ktx::textures`: a fresh traversal. -/
def Ktx.textures (k : Ktx) : Textures :=
  { parent := k, next_level := 0, level_end := 0 }

/-- One advance of the borrowed-view iterator, `Textures::next` (lib.rs,
lines 121-141): read a u32 length at the cursor into texture_data, yield the
following bytes, advance the cursor by 4 + length. No cubemap scaling. -/
def Textures.next (t : Textures) : Option (List Nat) × Textures :=
  if t.next_level ≥ t.parent.mipmap_levels then (none, t)
  else
    let l_end := t.level_end
    let next_lvl_len := readU32 t.parent.big_endian (t.parent.texture_data.drop l_end)
    (some (subrange t.parent.texture_data (l_end + 4) (l_end + 4 + next_lvl_len)),
     { t with next_level := t.next_level + 1, level_end := l_end + 4 + next_lvl_len })

/-- First components of up to n advances of the iterator, stopping at the
first end-of-sequence. -/
def collect : Nat → Textures → List (List Nat)
  | 0, _ => []
  | n + 1, t =>
    match Textures.next t with
    | (none, _) => []
    | (some x, t2) => x :: collect n t2

end lib

/-- Level payload view (slice.rs `Texture`): a plain level or a cubemap level
with the concatenated block and the six faces. -/
inductive Texture where
  | TwoDim (s : List Nat)
  | Cubemap (all x x_neg y y_neg z z_neg : List Nat)
deriving DecidableEq, Repr

/-- Deref impl of slice.rs `Texture`: the whole-level byte view. -/
def Texture.deref : Texture → List Nat
  | .TwoDim s => s
  | .Cubemap all _ _ _ _ _ _ => all

namespace slice

/-- Deref-based container (slice.rs `Ktx`): parsed header, the full byte
buffer, and the texture start offset. -/
structure Ktx where
  header : KtxHeader
  ktx_data : List Nat
  texture_start : Nat
deriving DecidableEq, Repr

/-- Parse, `Ktx::new` (slice.rs, lines 44-52): build the header with
KtxHeader.new, keep the whole buffer, and set the texture start to
64 + bytes_of_key_value_data. -/
def Ktx.new (ktx_data : List Nat) : Option Ktx :=
  (KtxHeader.new ktx_data).map fun header =>
    { header := header
      ktx_data := ktx_data
      texture_start := 64 + header.bytes_of_key_value_data }

/-- Level iterator state (slice.rs `Textures`). -/
structure Textures where
  parent : Ktx
  next_level : Nat
  level_end : Nat
deriving DecidableEq, Repr

/-- slice.rs `Ktx::textures`: a fresh traversal starting at texture_start. -/
def Ktx.textures (k : Ktx) : Textures :=
  { parent := k, next_level := 0, level_end := k.texture_start }

/-- One advance of the Deref-based iterator, `Textures::next` (slice.rs,
lines 124-163): read a u32 length L at the cursor; in the cubemap case
(array_elements = 0 and faces = 6) consume 4 + 6·L bytes and yield the
concatenated block plus the six face sub-ranges, otherwise consume 4 + L
bytes and yield a plain level. -/
def Textures.next (t : Textures) : Option Texture × Textures :=
  if t.next_level ≥ t.parent.header.mipmap_levels then (none, t)
  else
    let l_end := t.level_end
    let next_tex_len := readU32 t.parent.header.big_endian (t.parent.ktx_data.drop l_end)
    if t.parent.header.array_elements = 0 ∧ t.parent.header.faces = 6 then
      let level_end := l_end + 4 + 6 * next_tex_len
      let level_begin := l_end + 4
      (some (Texture.Cubemap
          (subrange t.parent.ktx_data level_begin level_end)
          (subrange t.parent.ktx_data level_begin (level_begin + next_tex_len))
          (subrange t.parent.ktx_data (level_begin + next_tex_len) (level_begin + next_tex_len * 2))
          (subrange t.parent.ktx_data (level_begin + next_tex_len * 2) (level_begin + next_tex_len * 3))
          (subrange t.parent.ktx_data (level_begin + next_tex_len * 3) (level_begin + next_tex_len * 4))
          (subrange t.parent.ktx_data (level_begin + next_tex_len * 4) (level_begin + next_tex_len * 5))
          (subrange t.parent.ktx_data (level_begin + next_tex_len * 5) (level_begin + next_tex_len * 6))),
       { t with next_level := t.next_level + 1, level_end := level_end })
    else
      let level_end := l_end + 4 + next_tex_len
      (some (Texture.TwoDim (subrange t.parent.ktx_data (l_end + 4) level_end)),
       { t with next_level := t.next_level + 1, level_end := level_end })

/-- State after n advances, the yields discarded. -/
def stepN : Nat → Textures → Textures
  | 0, t => t
  | n + 1, t => stepN n (Textures.next t).2

/-- First components of up to n advances, stopping at the first
end-of-sequence. -/
def collect : Nat → Textures → List Texture
  | 0, _ => []
  | n + 1, t =>
    match Textures.next t with
    | (none, _) => []
    | (some x, t2) => x :: collect n t2

end slice

namespace read

/-- Model of io::Read::read_exact over a remaining byte list: errors
(UnexpectedEof) when fewer than n bytes remain, otherwise returns the n bytes
and the rest of the stream. -/
def readExact (n : Nat) (s : List Nat) : Except Unit (List Nat × List Nat) :=
  if s.length < n then Except.error ()
  else Except.ok (s.take n, s.drop n)

/-- Model of reader.take(n).read_to_end(&mut buf): reads min(n, remaining)
bytes; never errors on a plain byte stream. -/
def takeReadToEnd (n : Nat) (s : List Nat) : List Nat × List Nat :=
  (s.take n, s.drop n)

/-- Streaming level iterator state (read.rs `Textures`): header snapshot,
remaining stream bytes, next level index. -/
structure Textures where
  header : KtxHeader
  data : List Nat
  next_level : Nat
deriving DecidableEq, Repr

/-- read.rs `KtxDecoder::read_textures` (lines 54-56): consume the decoder
into a fresh iterator. -/
def read_textures (header : KtxHeader) (data : List Nat) : Textures :=
  { header := header, data := data, next_level := 0 }

/-- One advance of the streaming iterator, `Textures::next` (read.rs, lines
86-115). On the first advance with nonzero bytes_of_key_value_data, that many
bytes are read and discarded (take + read_to_end). Then next_level is
incremented, a 4-byte length prefix is read with read_exact — a failure there
is converted by .ok()? into a plain end-of-sequence `none` — and the level is
read with take + read_to_end, which yields however many bytes remain (at most
the prefix value) without error. -/
def Textures.next (t : Textures) : Option (List Nat) × Textures :=
  if t.next_level ≥ t.header.mipmap_levels then (none, t)
  else
    let s0 :=
      if t.next_level = 0 ∧ t.header.bytes_of_key_value_data ≠ 0 then
        (takeReadToEnd t.header.bytes_of_key_value_data t.data).2
      else t.data
    let i2 := t.next_level + 1
    match readExact 4 s0 with
    | Except.error _ => (none, { t with next_level := i2, data := s0 })
    | Except.ok (lenBytes, s1) =>
      let level_len := readU32 t.header.big_endian lenBytes
      let (level, s2) := takeReadToEnd level_len s1
      (some level, { t with next_level := i2, data := s2 })

/-- Yields and final state of up to n advances, stopping at the first
end-of-sequence. -/
def run : Nat → Textures → List (List Nat) × Textures
  | 0, t => ([], t)
  | n + 1, t =>
    match Textures.next t with
    | (none, t2) => ([], t2)
    | (some x, t2) =>
      let r := run n t2
      (x :: r.1, r.2)

end read

/-- Byte-range overwrite: the functional rendering of
buffer[i .. i+src.len()].copy_from_slice(src) on an in-bounds write. -/
def writeAt (buf : List Nat) (i : Nat) (src : List Nat) : List Nat :=
  buf.take i ++ src ++ buf.drop (i + src.length)

namespace KtxBuilder

/-- Loop body of `KtxBuilder::to_vec` (write.rs, lines 44-63): for each level,
write the 4-byte prefix (level.len() as u32) / faces at the cursor, copy the
payload after it, advance the cursor by level.len() + 4. Rust panics when
faces = 0; theorems assume faces ≠ 0. -/
def toVecLoop (be : Bool) (faces : Nat) : List (List Nat) → List Nat → Nat → List Nat
  | [], buffer, _ => buffer
  | level :: rest, buffer, cur_index =>
    let write_end := level.length % 4294967296 / faces
    let buffer := writeAt buffer cur_index (writeU32 be write_end)
    let buffer := writeAt buffer (cur_index + 4) level
    toVecLoop be faces rest buffer (cur_index + level.length + 4)

/-- `KtxBuilder::to_vec` (write.rs, lines 26-66): allocate a zeroed buffer of
KTX_IDENTIFIER.len() + size_of(KtxHeader) + sum of (level.len() + 4) bytes
(size_of(KtxHeader) = 52: twelve u32 plus a padded bool), write the header
into its first 64 bytes, then run the level loop from offset 64. -/
def to_vec (header : KtxHeader) (levels : List (List Nat)) : List Nat :=
  let size := KTX_IDENTIFIER.length + 52 +
    (levels.map fun level => level.length + 4).sum
  let buffer := List.replicate size 0
  let buffer := writeAt buffer 0 header.write
  toVecLoop header.big_endian header.faces levels buffer 64

end KtxBuilder

/-- Serialized block of one level as laid out by the builder loop: 4-byte
prefix holding (level.len() as u32) / faces, then the raw payload. -/
def levelBlock (be : Bool) (faces : Nat) (level : List Nat) : List Nat :=
  writeU32 be (level.length % 4294967296 / faces) ++ level

/-- Concrete one-level cubemap fixture: little-endian header with faces = 6,
one mip level, no metadata, and a buffer whose level block is a length-1
prefix followed by six one-byte faces. -/
def cubemapHeader : KtxHeader :=
  { big_endian := false, gl_type := 0, gl_type_size := 1, gl_format := 0,
    gl_internal_format := 0, gl_base_internal_format := 0, pixel_width := 4,
    pixel_height := 4, pixel_depth := 0, array_elements := 0, faces := 6,
    mipmap_levels := 1, bytes_of_key_value_data := 0 }

/-- Bytes of the cubemap fixture past the header position. -/
def cubemapData : List Nat :=
  List.replicate 64 0 ++ [1, 0, 0, 0, 1, 2, 3, 4, 5, 6]

namespace read

/-- Serialized stream image of a list of level payloads: for each level, a
4-byte length prefix then the payload, concatenated. -/
def levelStream (be : Bool) (lvls : List (List Nat)) : List Nat :=
  (lvls.map fun lv => writeU32 be lv.length ++ lv).flatten

end read

/-- Concrete fixture container for the slice accessor (one cubemap level). -/
def kslice : slice.Ktx :=
  { header := cubemapHeader, ktx_data := cubemapData, texture_start := 64 }

/-- Concrete streaming fixture header: cubemap flags, one mip level, two
metadata bytes. -/
def streamHeader : KtxHeader :=
  { big_endian := false, gl_type := 0, gl_type_size := 1, gl_format := 0,
    gl_internal_format := 0, gl_base_internal_format := 0, pixel_width := 4,
    pixel_height := 4, pixel_depth := 0, array_elements := 0, faces := 6,
    mipmap_levels := 1, bytes_of_key_value_data := 2 }

/-- View of a parsed header as the borrowed-view struct (the thirteen fields
of lib.rs `Ktx` minus the data tail); lib.rs duplicates KtxHeader's parse
field for field, which this conversion makes explicit. -/
def lib.ofHeader (h : KtxHeader) (texture_data : List Nat) : lib.Ktx :=
  { big_endian := h.big_endian, gl_type := h.gl_type,
    gl_type_size := h.gl_type_size, gl_format := h.gl_format,
    gl_internal_format := h.gl_internal_format,
    gl_base_internal_format := h.gl_base_internal_format,
    pixel_width := h.pixel_width, pixel_height := h.pixel_height,
    pixel_depth := h.pixel_depth, array_elements := h.array_elements,
    faces := h.faces, mipmap_levels := h.mipmap_levels,
    bytes_of_key_value_data := h.bytes_of_key_value_data,
    texture_data := texture_data }

/-- Concrete non-cubemap fixture header (faces = 1, one level, no metadata). -/
def flatHeader : KtxHeader :=
  { big_endian := false, gl_type := 0, gl_type_size := 1, gl_format := 0,
    gl_internal_format := 0, gl_base_internal_format := 0, pixel_width := 4,
    pixel_height := 4, pixel_depth := 0, array_elements := 0, faces := 1,
    mipmap_levels := 1, bytes_of_key_value_data := 0 }

/-- Concrete non-cubemap container: header then one 2-byte level. -/
def flatData : List Nat :=
  KtxHeader.write flatHeader ++ [2, 0, 0, 0, 7, 9]

/-- Concrete two-level flat fixture header. -/
def flatHeader2 : KtxHeader :=
  { flatHeader with mipmap_levels := 2 }

/-- Concrete fixture header with a 3-byte metadata block. -/
def kvHeader : KtxHeader :=
  { flatHeader with bytes_of_key_value_data := 3 }

theorem writeU32_length (be : Bool) (v : Nat) : (writeU32 be v).length = 4 := by
  cases be <;> simp [writeU32]

theorem KtxHeader.write_length (h : KtxHeader) : h.write.length = 64 := by
  simp [KtxHeader.write, KTX_IDENTIFIER, writeU32_length]

theorem readU32_writeU32 (be : Bool) (v : Nat) (rest : List Nat) :
    readU32 be (writeU32 be v ++ rest) = v % 4294967296 := by
  cases be <;> simp [readU32, writeU32] <;> omega

theorem writeU32_drop_four (be : Bool) (v : Nat) (rest : List Nat) :
    (writeU32 be v ++ rest).drop 4 = rest := by
  cases be <;> simp [writeU32]

theorem KtxHeader.new_write (h : KtxHeader) (hw : h.wf) :
    KtxHeader.new h.write = some h := by
  cases h with
  | mk be gt gts gf gif gbif pw ph pd ae fc ml kv =>
    simp only [KtxHeader.wf] at hw
    obtain ⟨b1, b2, b3, b4, b5, b6, b7, b8, b9, b10, b11, b12⟩ := hw
    cases be <;>
      simp [KtxHeader.write, KtxHeader.new, writeU32, readU32, KTX_IDENTIFIER,
        List.getD] <;>
      omega

/-- C1. Header round-trip: for every header h (either big_endian flag, any
u32 values of the twelve fields), re-parsing the 64 bytes written by
KtxHeader.write with KtxHeader.new yields h again, the big_endian flag being
recovered from byte 12 of the sentinel. -/
theorem header_roundtrip (h : KtxHeader) (hw : h.wf) :
    KtxHeader.new h.write = some h :=
  KtxHeader.new_write h hw

/-- Witness for C1 at a concrete header. -/
theorem header_roundtrip_witness :
    KtxHeader.new (KtxHeader.write
      { big_endian := true, gl_type := 0, gl_type_size := 1, gl_format := 0,
        gl_internal_format := 33779, gl_base_internal_format := 6408,
        pixel_width := 260, pixel_height := 200, pixel_depth := 0,
        array_elements := 0, faces := 1, mipmap_levels := 8,
        bytes_of_key_value_data := 0 }) = some
      { big_endian := true, gl_type := 0, gl_type_size := 1, gl_format := 0,
        gl_internal_format := 33779, gl_base_internal_format := 6408,
        pixel_width := 260, pixel_height := 200, pixel_depth := 0,
        array_elements := 0, faces := 1, mipmap_levels := 8,
        bytes_of_key_value_data := 0 } :=
  header_roundtrip _ (by decide)

/-- C3. Header parsing of a buffer of at least 64 bytes fails (malformed
container) exactly when bytes [0,12) differ from the magic identifier, and
proceeds to a header whenever they match. -/
theorem header_parse_magic (bytes : List Nat) (hlen : 64 ≤ bytes.length) :
    (bytes.take 12 ≠ KTX_IDENTIFIER → KtxHeader.new bytes = none) ∧
    (bytes.take 12 = KTX_IDENTIFIER → (KtxHeader.new bytes).isSome = true) := by
  have h64 : ¬ bytes.length < 64 := by omega
  constructor <;> intro hm <;> simp [KtxHeader.new, h64, hm]

/-- Witness for C3: a zero buffer is rejected, a magic-fronted buffer parses. -/
theorem header_parse_magic_witness :
    KtxHeader.new (List.replicate 64 0) = none ∧
    (KtxHeader.new (KTX_IDENTIFIER ++ List.replicate 52 0)).isSome = true :=
  ⟨(header_parse_magic (List.replicate 64 0) (by decide)).1 (by decide),
   (header_parse_magic (KTX_IDENTIFIER ++ List.replicate 52 0)
      (by decide)).2 (by decide)⟩

theorem levelBlock_length (be : Bool) (faces : Nat) (level : List Nat) :
    (levelBlock be faces level).length = 4 + level.length := by
  simp [levelBlock, writeU32_length]

theorem toVecLoop_eq (be : Bool) (faces : Nat) :
    ∀ (lvls : List (List Nat)) (done : List Nat) (m : Nat),
      m = (lvls.map fun l => l.length + 4).sum →
      KtxBuilder.toVecLoop be faces lvls (done ++ List.replicate m 0) done.length =
        done ++ (lvls.map (levelBlock be faces)).flatten
  | [], done, m, hm => by
    simp at hm
    simp [KtxBuilder.toVecLoop, hm]
  | lv :: rest, done, m, hm => by
    simp only [List.map_cons, List.sum_cons] at hm
    have h4 : (writeU32 be (lv.length % 4294967296 / faces)).length = 4 :=
      writeU32_length _ _
    have step1 :
        writeAt (done ++ List.replicate m 0) done.length
            (writeU32 be (lv.length % 4294967296 / faces)) =
          (done ++ writeU32 be (lv.length % 4294967296 / faces)) ++
            List.replicate (m - 4) 0 := by
      unfold writeAt
      rw [List.take_left, h4, List.drop_append, List.drop_replicate]
    have step2 :
        writeAt ((done ++ writeU32 be (lv.length % 4294967296 / faces)) ++
            List.replicate (m - 4) 0) (done.length + 4) lv =
          ((done ++ writeU32 be (lv.length % 4294967296 / faces)) ++ lv) ++
            List.replicate (m - 4 - lv.length) 0 := by
      unfold writeAt
      have hlen : (done ++ writeU32 be (lv.length % 4294967296 / faces)).length =
          done.length + 4 := by simp [h4]
      rw [List.take_left' hlen, ← hlen, List.drop_append, List.drop_replicate]
    have hrec := toVecLoop_eq be faces rest
      ((done ++ writeU32 be (lv.length % 4294967296 / faces)) ++ lv)
      (m - 4 - lv.length) (by omega)
    have hcur : ((done ++ writeU32 be (lv.length % 4294967296 / faces)) ++ lv).length =
        done.length + lv.length + 4 := by simp [h4]; omega
    simp only [KtxBuilder.toVecLoop]
    rw [step1, step2, ← hcur, hrec]
    simp [levelBlock]

theorem to_vec_eq (h : KtxHeader) (levels : List (List Nat)) :
    KtxBuilder.to_vec h levels =
      h.write ++ (levels.map (levelBlock h.big_endian h.faces)).flatten := by
  simp only [KtxBuilder.to_vec]
  have hsize : KTX_IDENTIFIER.length + 52 +
      (levels.map fun level => level.length + 4).sum =
      64 + (levels.map fun level => level.length + 4).sum := by
    simp [KTX_IDENTIFIER]
  rw [hsize]
  have hw64 := h.write_length
  have hhead : writeAt (List.replicate (64 + (levels.map fun level =>
      level.length + 4).sum) 0) 0 h.write =
      h.write ++ List.replicate ((levels.map fun level => level.length + 4).sum) 0 := by
    unfold writeAt
    rw [List.take_zero, Nat.zero_add, hw64, List.drop_replicate]
    simp
  rw [hhead, ← hw64]
  exact toVecLoop_eq h.big_endian h.faces levels h.write _ rfl

theorem to_vec_length (h : KtxHeader) (levels : List (List Nat)) :
    (KtxBuilder.to_vec h levels).length =
      64 + (levels.map fun lv => 4 + lv.length).sum := by
  have hfl : ∀ ls : List (List Nat),
      ((ls.map (levelBlock h.big_endian h.faces)).flatten).length =
        (ls.map fun lv => 4 + lv.length).sum := by
    intro ls
    induction ls with
    | nil => simp
    | cons a l ih => simp [List.flatten_cons, levelBlock_length, ih]
  rw [to_vec_eq, List.length_append, h.write_length, hfl]

/-- C7. Builder output layout: the buffer is exactly
64 + Σ (4 + level length) bytes, the serialized header occupies bytes
[0, 64), and each level contributes, in insertion order, a 4-byte prefix
holding level length / face count (truncating Nat division) followed by the
raw payload. Rust panics when faces = 0, hence the faces hypothesis; levels
fit in u32 so the as-u32 cast of their length is the identity. -/
theorem builder_layout (h : KtxHeader) (levels : List (List Nat))
    (hf : h.faces ≠ 0) (hlen : ∀ lv ∈ levels, lv.length < 4294967296) :
    (KtxBuilder.to_vec h levels).length =
      64 + (levels.map fun lv => 4 + lv.length).sum ∧
    (KtxBuilder.to_vec h levels).take 64 = h.write ∧
    KtxBuilder.to_vec h levels =
      h.write ++ (levels.map fun lv =>
        writeU32 h.big_endian (lv.length / h.faces) ++ lv).flatten := by
  have hblocks : levels.map (levelBlock h.big_endian h.faces) =
      levels.map fun lv => writeU32 h.big_endian (lv.length / h.faces) ++ lv := by
    refine List.map_congr_left fun lv hmem => ?_
    unfold levelBlock
    rw [Nat.mod_eq_of_lt (hlen lv hmem)]
  refine ⟨to_vec_length h levels, ?_, ?_⟩
  · rw [to_vec_eq, ← h.write_length, List.take_left]
  · rw [to_vec_eq, hblocks]

/-- Witness for C7 at a concrete builder input. -/
theorem builder_layout_witness :
    (KtxBuilder.to_vec
        { big_endian := false, gl_type := 0, gl_type_size := 1, gl_format := 0,
          gl_internal_format := 0, gl_base_internal_format := 0,
          pixel_width := 4, pixel_height := 4, pixel_depth := 0,
          array_elements := 0, faces := 1, mipmap_levels := 2,
          bytes_of_key_value_data := 0 } [[1, 2, 3], [4, 5]]).length =
      64 + (([[1, 2, 3], [4, 5]] : List (List Nat)).map fun lv =>
        4 + lv.length).sum :=
  (builder_layout _ [[1, 2, 3], [4, 5]] (by decide) (by decide)).1

theorem subrange_congr (l : List Nat) {a b a2 b2 : Nat} (ha : a = a2)
    (hb : b = b2) : subrange l a b = subrange l a2 b2 := by
  rw [ha, hb]

theorem subrange_subrange (l : List Nat) (a n m k : Nat) (h : m + k ≤ n) :
    subrange (subrange l a (a + n)) m (m + k) = subrange l (a + m) (a + m + k) := by
  simp only [subrange, List.drop_take, List.drop_drop, List.take_take]
  congr 1
  omega

theorem take_drop_congr (l : List Nat) {a b a2 b2 : Nat} (h1 : a = a2)
    (h2 : b = b2) : (l.drop a).take b = (l.drop a2).take b2 := by
  rw [h1, h2]

/-- C4. Cubemap step of the slice accessor: with array_elements = 0 and
faces = 6, an advance at cursor p reads the stored length L at p, moves the
cursor to p + 4 + 6·L, and yields a cubemap whose concatenated block A is the
byte range [p+4, p+4+6L) of the buffer and whose i-th face (order +X, −X, +Y,
−Y, +Z, −Z, i from 0) is the byte range [i·L, i·L + L) — that is,
[i·L, (i+1)·L) — of A; in particular the 2nd face spans [L, 2L) and the 6th
face spans [5L, 6L) of the level. -/
theorem slice_cubemap_decomposition
    (t : slice.Textures) (L : Nat) (A : List Nat)
    (ha : t.parent.header.array_elements = 0)
    (hf : t.parent.header.faces = 6)
    (hi : t.next_level < t.parent.header.mipmap_levels)
    (hL : L = readU32 t.parent.header.big_endian (t.parent.ktx_data.drop t.level_end))
    (hA : A = subrange t.parent.ktx_data (t.level_end + 4) (t.level_end + 4 + 6 * L)) :
    slice.Textures.next t =
      (some (Texture.Cubemap A
          (subrange A 0 L)
          (subrange A L (2 * L))
          (subrange A (2 * L) (3 * L))
          (subrange A (3 * L) (4 * L))
          (subrange A (4 * L) (5 * L))
          (subrange A (5 * L) (6 * L))),
        { t with next_level := t.next_level + 1,
                 level_end := t.level_end + 4 + 6 * L }) := by
  have hguard : ¬ t.next_level ≥ t.parent.header.mipmap_levels := by omega
  simp only [slice.Textures.next]
  rw [if_neg hguard, if_pos (show _ ∧ _ from ⟨ha, hf⟩), ← hL]
  simp only [Prod.mk.injEq, Option.some.injEq, Texture.Cubemap.injEq]
  refine ⟨⟨hA.symm, ?_, ?_, ?_, ?_, ?_, ?_⟩, trivial⟩ <;>
    rw [hA] <;>
    simp only [subrange, List.drop_take, List.drop_drop, List.take_take] <;>
    exact take_drop_congr _ (by omega) (by omega)

/-- Witness for C4 at a concrete one-level cubemap container. -/
theorem slice_cubemap_decomposition_witness :
    slice.Textures.next
      { parent := { header := cubemapHeader, ktx_data := cubemapData,
                    texture_start := 64 },
        next_level := 0, level_end := 64 } =
      (some (Texture.Cubemap [1, 2, 3, 4, 5, 6] [1] [2] [3] [4] [5] [6]),
       { parent := { header := cubemapHeader, ktx_data := cubemapData,
                     texture_start := 64 },
         next_level := 1, level_end := 74 }) :=
  (slice_cubemap_decomposition _ 1 [1, 2, 3, 4, 5, 6]
      (by decide) (by decide) (by decide) (by decide) (by decide)).trans
    (by decide)

theorem readU32_append (be : Bool) (l x : List Nat) (h : 4 ≤ l.length) :
    readU32 be (l ++ x) = readU32 be l := by
  unfold readU32
  rw [List.getD_append _ _ _ 0 (by omega), List.getD_append _ _ _ 1 (by omega),
    List.getD_append _ _ _ 2 (by omega), List.getD_append _ _ _ 3 (by omega)]

theorem KtxHeader.new_append (pre x : List Nat) (hlen : pre.length = 64) :
    KtxHeader.new (pre ++ x) = KtxHeader.new pre := by
  unfold KtxHeader.new
  have h1 : ¬ (pre ++ x).length < 64 := by simp [hlen]
  have h2 : ¬ pre.length < 64 := by omega
  have ht : (pre ++ x).take 12 = pre.take 12 :=
    List.take_append_of_le_length (by omega)
  rw [if_neg h1, if_neg h2, ht]
  by_cases hm : pre.take 12 ≠ KTX_IDENTIFIER
  · rw [if_pos hm, if_pos hm]
  · rw [if_neg hm, if_neg hm]
    have hg : (pre ++ x).getD 12 0 = pre.getD 12 0 :=
      List.getD_append _ _ _ 12 (by omega)
    have hdk : ∀ k, k + 4 ≤ 64 →
        readU32 (pre.getD 12 0 == 4) ((pre ++ x).drop k) =
          readU32 (pre.getD 12 0 == 4) (pre.drop k) := by
      intro k hk
      rw [List.drop_append_of_le_length (by omega),
        readU32_append _ _ _ (by rw [List.length_drop]; omega)]
    simp only [hg]
    rw [hdk 16 (by omega), hdk 20 (by omega), hdk 24 (by omega),
      hdk 28 (by omega), hdk 32 (by omega), hdk 36 (by omega),
      hdk 40 (by omega), hdk 44 (by omega), hdk 48 (by omega),
      hdk 52 (by omega), hdk 56 (by omega), hdk 60 (by omega)]

theorem drop_append_ge (a rest : List Nat) (p : Nat) (hp : a.length ≤ p) :
    (a ++ rest).drop p = rest.drop (p - a.length) := by
  obtain ⟨q, rfl⟩ : ∃ q, p = a.length + q := ⟨p - a.length, by omega⟩
  rw [List.drop_append]
  congr 1
  omega

theorem subrange_append_ge (a rest : List Nat) (x y : Nat)
    (hx : a.length ≤ x) :
    subrange (a ++ rest) x y = subrange rest (x - a.length) (y - a.length) := by
  unfold subrange
  rw [drop_append_ge _ _ _ hx]
  congr 1
  omega

/-- C8. Metadata skip of the slice accessor: construction computes the first
level offset as exactly 64 + bytes_of_key_value_data, so for a container with
bytes_of_key_value_data = K > 0, the K junk bytes sitting between the header
and the level data have no influence: construction succeeds with the parsed
header and texture_start = 64 + K for any junk contents, and the level-0
payload yielded by the first advance of textures() is the same whichever K
junk bytes are inserted. -/
theorem slice_metadata_skip (h : KtxHeader) (pre junk junk2 rest : List Nat)
    (hpre : pre.length = 64)
    (hparse : KtxHeader.new pre = some h)
    (hkv : 0 < h.bytes_of_key_value_data)
    (hj : junk.length = h.bytes_of_key_value_data)
    (hj2 : junk2.length = h.bytes_of_key_value_data) :
    slice.Ktx.new (pre ++ (junk ++ rest)) =
      some { header := h, ktx_data := pre ++ (junk ++ rest),
             texture_start := 64 + h.bytes_of_key_value_data } ∧
    slice.Ktx.new (pre ++ (junk2 ++ rest)) =
      some { header := h, ktx_data := pre ++ (junk2 ++ rest),
             texture_start := 64 + h.bytes_of_key_value_data } ∧
    (slice.Textures.next (slice.Ktx.textures
        { header := h, ktx_data := pre ++ (junk ++ rest),
          texture_start := 64 + h.bytes_of_key_value_data })).1 =
      (slice.Textures.next (slice.Ktx.textures
        { header := h, ktx_data := pre ++ (junk2 ++ rest),
          texture_start := 64 + h.bytes_of_key_value_data })).1 := by
  have hn1 : KtxHeader.new (pre ++ (junk ++ rest)) = some h := by
    rw [KtxHeader.new_append pre _ hpre]; exact hparse
  have hn2 : KtxHeader.new (pre ++ (junk2 ++ rest)) = some h := by
    rw [KtxHeader.new_append pre _ hpre]; exact hparse
  refine ⟨by simp [slice.Ktx.new, hn1], by simp [slice.Ktx.new, hn2], ?_⟩
  by_cases hg : (0 : Nat) ≥ h.mipmap_levels
  · simp [slice.Ktx.textures, slice.Textures.next, hg]
  · have ha1 : pre ++ (junk ++ rest) = (pre ++ junk) ++ rest :=
      (List.append_assoc pre junk rest).symm
    have ha2 : pre ++ (junk2 ++ rest) = (pre ++ junk2) ++ rest :=
      (List.append_assoc pre junk2 rest).symm
    have hc1 : (pre ++ junk).length = 64 + h.bytes_of_key_value_data := by
      simp [hpre, hj]
    have hc2 : (pre ++ junk2).length = 64 + h.bytes_of_key_value_data := by
      simp [hpre, hj2]
    have hdropeq : ∀ q, 64 + h.bytes_of_key_value_data ≤ q →
        (pre ++ (junk ++ rest)).drop q = (pre ++ (junk2 ++ rest)).drop q := by
      intro q hq
      rw [ha1, ha2, drop_append_ge _ _ _ (by omega), drop_append_ge _ _ _ (by omega),
        hc1, hc2]
    have hsubeq : ∀ x y, 64 + h.bytes_of_key_value_data ≤ x →
        subrange (pre ++ (junk ++ rest)) x y =
          subrange (pre ++ (junk2 ++ rest)) x y := by
      intro x y hx
      rw [ha1, ha2, subrange_append_ge _ _ _ _ (by omega),
        subrange_append_ge _ _ _ _ (by omega), hc1, hc2]
    simp only [slice.Ktx.textures, slice.Textures.next]
    rw [if_neg hg, if_neg hg]
    simp only [hdropeq _ (Nat.le_refl _)]
    by_cases hcube : h.array_elements = 0 ∧ h.faces = 6
    · rw [if_pos hcube, if_pos hcube]
      simp only [Option.some.injEq, Texture.Cubemap.injEq]
      refine ⟨?_, ?_, ?_, ?_, ?_, ?_, ?_⟩ <;> exact hsubeq _ _ (by omega)
    · rw [if_neg hcube, if_neg hcube]
      simp only [Option.some.injEq, Texture.TwoDim.injEq]
      exact hsubeq _ _ (by omega)

theorem slice_next_parent (t : slice.Textures) :
    (slice.Textures.next t).2.parent = t.parent := by
  simp only [slice.Textures.next]
  split
  · rfl
  · split <;> rfl

theorem slice_next_level_lt (t : slice.Textures)
    (h : t.next_level < t.parent.header.mipmap_levels) :
    (slice.Textures.next t).1.isSome = true ∧
    (slice.Textures.next t).2.next_level = t.next_level + 1 := by
  simp only [slice.Textures.next]
  rw [if_neg (by omega)]
  split <;> simp

theorem slice_next_ge (t : slice.Textures)
    (h : t.parent.header.mipmap_levels ≤ t.next_level) :
    slice.Textures.next t = (none, t) := by
  simp only [slice.Textures.next]
  rw [if_pos (by omega)]

theorem slice_stepN_parent : ∀ (n : Nat) (t : slice.Textures),
    (slice.stepN n t).parent = t.parent
  | 0, _ => rfl
  | n + 1, t => by
    simp only [slice.stepN]
    rw [slice_stepN_parent n _, slice_next_parent]

theorem slice_stepN_level : ∀ (n : Nat) (t : slice.Textures),
    (slice.stepN n t).next_level =
      min (t.next_level + n) (max t.next_level t.parent.header.mipmap_levels)
  | 0, t => by simp only [slice.stepN]; omega
  | n + 1, t => by
    simp only [slice.stepN]
    rw [slice_stepN_level n _]
    by_cases hlt : t.next_level < t.parent.header.mipmap_levels
    · have h2 := (slice_next_level_lt t hlt).2
      rw [h2, slice_next_parent]
      omega
    · rw [slice_next_ge t (by omega)]
      dsimp only
      omega

theorem read_next_ge (t : read.Textures)
    (h : t.header.mipmap_levels ≤ t.next_level) :
    read.Textures.next t = (none, t) := by
  simp only [read.Textures.next]
  rw [if_pos (by omega)]

theorem read_next_block (t : read.Textures) (lv excess : List Nat)
    (hi : t.next_level < t.header.mipmap_levels)
    (hlen : lv.length < 4294967296)
    (heff : (if t.next_level = 0 ∧ t.header.bytes_of_key_value_data ≠ 0 then
          (read.takeReadToEnd t.header.bytes_of_key_value_data t.data).2
        else t.data) =
      writeU32 t.header.big_endian lv.length ++ (lv ++ excess)) :
    read.Textures.next t =
      (some lv, { t with next_level := t.next_level + 1, data := excess }) := by
  simp only [read.Textures.next]
  rw [if_neg (by omega), heff]
  have hre : read.readExact 4
      (writeU32 t.header.big_endian lv.length ++ (lv ++ excess)) =
      Except.ok (writeU32 t.header.big_endian lv.length, lv ++ excess) := by
    unfold read.readExact
    rw [if_neg (by simp [writeU32_length])]
    rw [List.take_left' (writeU32_length _ _), List.drop_left' (writeU32_length _ _)]
  rw [hre]
  simp only [read.takeReadToEnd]
  have hr32 : readU32 t.header.big_endian
      (writeU32 t.header.big_endian lv.length) = lv.length := by
    have := readU32_writeU32 t.header.big_endian lv.length []
    rw [List.append_nil] at this
    rw [this, Nat.mod_eq_of_lt hlen]
  rw [hr32, List.take_left, List.drop_left]

theorem read_run_levels :
    ∀ (lvls : List (List Nat)) (n : Nat) (t : read.Textures) (excess : List Nat),
      t.next_level + lvls.length = t.header.mipmap_levels →
      (∀ lv ∈ lvls, lv.length < 4294967296) →
      (if t.next_level = 0 ∧ t.header.bytes_of_key_value_data ≠ 0 then
          (read.takeReadToEnd t.header.bytes_of_key_value_data t.data).2
        else t.data) =
        read.levelStream t.header.big_endian lvls ++ excess →
      lvls.length ≤ n →
      (read.run n t).1 = lvls ∧
      (read.run n t).2.next_level = t.header.mipmap_levels
  | [], n, t, excess, hmip, _, _, _ => by
    have hnl : t.next_level = t.header.mipmap_levels := by
      simp only [List.length_nil] at hmip
      omega
    cases n with
    | zero => exact ⟨rfl, hnl⟩
    | succ m =>
      simp only [read.run, read_next_ge t (by omega)]
      exact ⟨trivial, hnl⟩
  | lv :: rest, n, t, excess, hmip, hbound, heff, hn => by
    cases n with
    | zero => simp at hn
    | succ m =>
      have hstep := read_next_block t lv (read.levelStream t.header.big_endian rest ++ excess)
        (by simp at hmip; omega) (hbound lv (by simp))
        (by rw [heff]
            simp only [read.levelStream, List.map_cons, List.flatten_cons]
            rw [List.append_assoc, List.append_assoc])
      have hrec := read_run_levels rest m
        { t with next_level := t.next_level + 1,
                 data := read.levelStream t.header.big_endian rest ++ excess }
        excess (by simp at hmip ⊢; omega)
        (fun x hx => hbound x (by simp [hx]))
        (by rw [if_neg (by simp)]) (by simp at hn; omega)
      simp only [read.run, hstep]
      exact ⟨by rw [hrec.1], hrec.2⟩

/-- C9. Finite ordered iteration. Slice accessor: from a fresh textures()
traversal, the i-th advance (i < mipmap_levels) happens at level counter i and
yields an element; once mipmap_levels advances have happened the iterator
returns end-of-sequence with an unchanged state, hence permanently, and never
an element; textures() always starts a fresh traversal at level 0 and
level_end = texture_start, independent of any other traversal (the accessor
itself is immutable). Streaming accessor: past mipmap_levels the iterator
returns end-of-sequence with unchanged state; on a complete container stream
(kv block then mipmap_levels prefixed level blocks) it yields exactly the
mipmap_levels payloads in order, ending at level counter mipmap_levels. -/
theorem level_iteration :
    (∀ (k : slice.Ktx) (i : Nat), i < k.header.mipmap_levels →
        (slice.stepN i (slice.Ktx.textures k)).next_level = i ∧
        (slice.Textures.next (slice.stepN i (slice.Ktx.textures k))).1.isSome =
          true) ∧
    (∀ (k : slice.Ktx) (j : Nat), k.header.mipmap_levels ≤ j →
        slice.Textures.next (slice.stepN j (slice.Ktx.textures k)) =
          (none, slice.stepN j (slice.Ktx.textures k))) ∧
    (∀ k : slice.Ktx, (slice.Ktx.textures k).next_level = 0 ∧
        (slice.Ktx.textures k).level_end = k.texture_start) ∧
    (∀ t : read.Textures, t.header.mipmap_levels ≤ t.next_level →
        read.Textures.next t = (none, t)) ∧
    (∀ (h : KtxHeader) (kvdata : List Nat) (lvls : List (List Nat)) (n : Nat),
        kvdata.length = h.bytes_of_key_value_data →
        lvls.length = h.mipmap_levels →
        (∀ lv ∈ lvls, lv.length < 4294967296) →
        lvls.length ≤ n →
        (read.run n (read.read_textures h
            (kvdata ++ read.levelStream h.big_endian lvls))).1 = lvls ∧
        (read.run n (read.read_textures h
            (kvdata ++ read.levelStream h.big_endian lvls))).2.next_level =
          h.mipmap_levels) := by
  refine ⟨?_, ?_, ?_, fun t => read_next_ge t, ?_⟩
  · intro k i hi
    have hl := slice_stepN_level i (slice.Ktx.textures k)
    have hp2 := slice_stepN_parent i (slice.Ktx.textures k)
    simp only [slice.Ktx.textures] at hl hp2
    simp only [slice.Ktx.textures]
    have hleve : (slice.stepN i
        { parent := k, next_level := 0, level_end := k.texture_start :
            slice.Textures }).next_level = i := by
      rw [hl]
      omega
    refine ⟨hleve, (slice_next_level_lt _ ?_).1⟩
    rw [hleve, hp2]
    exact hi
  · intro k j hj
    have hl := slice_stepN_level j (slice.Ktx.textures k)
    have hp2 := slice_stepN_parent j (slice.Ktx.textures k)
    simp only [slice.Ktx.textures] at hl hp2
    simp only [slice.Ktx.textures]
    refine slice_next_ge _ ?_
    rw [hl, hp2]
    omega
  · intro k
    exact ⟨rfl, rfl⟩
  · intro h kvdata lvls n hkvlen hml hb hn
    refine read_run_levels lvls n _ [] ?_ hb ?_ hn
    · simp only [read.read_textures]
      omega
    · simp only [read.read_textures]
      by_cases hkv0 : h.bytes_of_key_value_data = 0
      · rw [if_neg (by simp [hkv0])]
        have hke : kvdata = [] := List.eq_nil_of_length_eq_zero (by omega)
        simp [hke]
      · rw [if_pos ⟨trivial, hkv0⟩]
        simp only [read.takeReadToEnd]
        rw [List.drop_left' hkvlen]
        simp

/-- Witness for C9 at the concrete fixtures. -/
theorem level_iteration_witness :
    ((slice.stepN 0 (slice.Ktx.textures kslice)).next_level = 0 ∧
      (slice.Textures.next (slice.stepN 0 (slice.Ktx.textures kslice))).1.isSome =
        true) ∧
    slice.Textures.next (slice.stepN 1 (slice.Ktx.textures kslice)) =
      (none, slice.stepN 1 (slice.Ktx.textures kslice)) ∧
    (read.run 1 (read.read_textures cubemapHeader
        ([] ++ read.levelStream cubemapHeader.big_endian [[5]]))).1 = [[5]] := by
  obtain ⟨c1, c2, c3, c4, c5⟩ := level_iteration
  exact ⟨c1 kslice 0 (by decide), c2 kslice 1 (by decide),
    (c5 cubemapHeader [] [[5]] 1 (by decide) (by decide) (by decide)
      (by decide)).1⟩

theorem readU32_take_four (be : Bool) (l : List Nat) :
    readU32 be (l.take 4) = readU32 be l := by
  unfold readU32
  have hg : ∀ i, i < 4 → (l.take 4).getD i 0 = l.getD i 0 := by
    intro i hi
    rw [List.getD_eq_getElem?_getD, List.getD_eq_getElem?_getD,
      List.getElem?_take, if_pos hi]
  rw [hg 0 (by omega), hg 1 (by omega), hg 2 (by omega), hg 3 (by omega)]

/-- C6. Streaming iterator step. First advance (next_level = 0): exactly
bytes_of_key_value_data bytes are discarded by reading (modelled as dropping
them from the remaining stream), then a 4-byte length prefix L in header
endianness is read and exactly L bytes are returned as a fresh buffer — no
face-count scaling, whatever the faces field. Later advances (next_level ≠ 0)
do the same without the discard. Hypotheses demand the stream long enough;
otherwise reads come up short (C2). -/
theorem read_streaming_step :
    (∀ (t : read.Textures) (L : Nat),
      t.next_level = 0 →
      t.header.bytes_of_key_value_data + 4 + L ≤ t.data.length →
      0 < t.header.mipmap_levels →
      L = readU32 t.header.big_endian
        (t.data.drop t.header.bytes_of_key_value_data) →
      read.Textures.next t =
        (some ((t.data.drop (t.header.bytes_of_key_value_data + 4)).take L),
         { t with next_level := 1,
                  data := (t.data.drop
                    (t.header.bytes_of_key_value_data + 4)).drop L }) ∧
      ((t.data.drop (t.header.bytes_of_key_value_data + 4)).take L).length = L) ∧
    (∀ (t : read.Textures) (L : Nat),
      t.next_level ≠ 0 →
      t.next_level < t.header.mipmap_levels →
      4 + L ≤ t.data.length →
      L = readU32 t.header.big_endian t.data →
      read.Textures.next t =
        (some ((t.data.drop 4).take L),
         { t with next_level := t.next_level + 1,
                  data := (t.data.drop 4).drop L }) ∧
      ((t.data.drop 4).take L).length = L) := by
  constructor
  · intro t L h0 hlen hmip hL
    have hguard : ¬ t.next_level ≥ t.header.mipmap_levels := by omega
    simp only [read.Textures.next]
    rw [if_neg hguard]
    have hs0 : (if t.next_level = 0 ∧ t.header.bytes_of_key_value_data ≠ 0 then
        (read.takeReadToEnd t.header.bytes_of_key_value_data t.data).2
      else t.data) = t.data.drop t.header.bytes_of_key_value_data := by
      by_cases hkv : t.header.bytes_of_key_value_data = 0
      · rw [if_neg (by simp [hkv]), hkv, List.drop_zero]
      · rw [if_pos ⟨h0, hkv⟩]
        rfl
    rw [hs0]
    have hre : read.readExact 4
        (t.data.drop t.header.bytes_of_key_value_data) =
        Except.ok ((t.data.drop t.header.bytes_of_key_value_data).take 4,
          (t.data.drop t.header.bytes_of_key_value_data).drop 4) := by
      unfold read.readExact
      rw [if_neg (by rw [List.length_drop]; omega)]
    rw [hre]
    simp only [read.takeReadToEnd]
    have hr4 : readU32 t.header.big_endian
        ((t.data.drop t.header.bytes_of_key_value_data).take 4) = L := by
      rw [readU32_take_four, ← hL]
    rw [hr4, h0, List.drop_drop]
    refine ⟨rfl, ?_⟩
    rw [List.length_take, List.length_drop]
    omega
  · intro t L h0 hi hlen hL
    have hguard : ¬ t.next_level ≥ t.header.mipmap_levels := by omega
    simp only [read.Textures.next]
    rw [if_neg hguard, if_neg (by simp [h0])]
    have hre : read.readExact 4 t.data =
        Except.ok (t.data.take 4, t.data.drop 4) := by
      unfold read.readExact
      rw [if_neg (by omega)]
    rw [hre]
    simp only [read.takeReadToEnd]
    have hr4 : readU32 t.header.big_endian (t.data.take 4) = L := by
      rw [readU32_take_four, ← hL]
    rw [hr4]
    refine ⟨rfl, ?_⟩
    rw [List.length_take, List.length_drop]
    omega

/-- Witness for C6: first advance on a stream with 2 metadata bytes then a
3-byte level. -/
theorem read_streaming_step_witness :
    read.Textures.next
      { header := streamHeader, data := [9, 9, 3, 0, 0, 0, 7, 8, 5],
        next_level := 0 } =
      (some [7, 8, 5],
       { header := streamHeader, data := [], next_level := 1 }) :=
  ((read_streaming_step.1 _ 3 (by decide) (by decide) (by decide)
      (by decide)).1).trans (by decide)

/-- Counterexample for C2: with header mipmap_levels = 1 and a 2-byte stream,
the 4-byte prefix read fails in the underlying primitive (read_exact returns
an error), yet the iterator's advance returns plain end-of-sequence `none` —
the exact same outcome an already-exhausted iterator produces — so the I/O
failure is swallowed by the .ok()? conversion, not propagated. -/
theorem read_short_swallow_counterexample :
    read.readExact 4 ([0, 0] : List Nat) = Except.error () ∧
    read.Textures.next
      { header := cubemapHeader, data := [0, 0], next_level := 0 } =
      (none, { header := cubemapHeader, data := [0, 0], next_level := 1 }) ∧
    read.Textures.next
      { header := cubemapHeader, data := [0, 0], next_level := 1 } =
      (none, { header := cubemapHeader, data := [0, 0], next_level := 1 }) := by
  refine ⟨rfl, by decide, by decide⟩

/-- C2 (amended). Streaming short reads are swallowed, never propagated: when
fewer than 4 bytes remain for the length prefix, the advance yields
end-of-sequence `none` (the read_exact error is converted by .ok()?),
terminating the sequence early with no error value — indistinguishable from
normal exhaustion; when the prefix is read but the payload comes up short,
take + read_to_end yields a truncated level of min(L, remaining) bytes with
no error at all. Yields are fresh immutable buffers, so levels already
yielded remain valid. -/
theorem read_short_read_behavior :
    (∀ t : read.Textures,
      t.next_level < t.header.mipmap_levels →
      (t.next_level = 0 → t.header.bytes_of_key_value_data = 0) →
      t.data.length < 4 →
      read.Textures.next t =
        (none, { t with next_level := t.next_level + 1 })) ∧
    (∀ (t : read.Textures) (L : Nat),
      t.next_level ≠ 0 →
      t.next_level < t.header.mipmap_levels →
      4 ≤ t.data.length →
      L = readU32 t.header.big_endian t.data →
      read.Textures.next t =
        (some ((t.data.drop 4).take L),
         { t with next_level := t.next_level + 1,
                  data := (t.data.drop 4).drop L }) ∧
      ((t.data.drop 4).take L).length = min L (t.data.length - 4)) := by
  constructor
  · intro t hi hkv hshort
    have hguard : ¬ t.next_level ≥ t.header.mipmap_levels := by omega
    simp only [read.Textures.next]
    rw [if_neg hguard]
    have hs0 : (if t.next_level = 0 ∧ t.header.bytes_of_key_value_data ≠ 0 then
        (read.takeReadToEnd t.header.bytes_of_key_value_data t.data).2
      else t.data) = t.data := by
      rw [if_neg]
      intro hcon
      exact hcon.2 (hkv hcon.1)
    rw [hs0]
    have hre : read.readExact 4 t.data = Except.error () := by
      unfold read.readExact
      rw [if_pos (by omega)]
    rw [hre]
  · intro t L h0 hi hlen hL
    have hguard : ¬ t.next_level ≥ t.header.mipmap_levels := by omega
    simp only [read.Textures.next]
    rw [if_neg hguard, if_neg (by simp [h0])]
    have hre : read.readExact 4 t.data =
        Except.ok (t.data.take 4, t.data.drop 4) := by
      unfold read.readExact
      rw [if_neg (by omega)]
    rw [hre]
    simp only [read.takeReadToEnd]
    have hr4 : readU32 t.header.big_endian (t.data.take 4) = L := by
      rw [readU32_take_four, ← hL]
    rw [hr4]
    refine ⟨rfl, ?_⟩
    rw [List.length_take, List.length_drop]

/-- Witness for the amended C2: a 3-byte stream is silently exhausted; a
promised 9-byte payload with only one byte available yields a truncated
1-byte level. -/
theorem read_short_read_behavior_witness :
    read.Textures.next
      { header := cubemapHeader, data := [1, 2, 3], next_level := 0 } =
      (none, { header := cubemapHeader, data := [1, 2, 3], next_level := 1 }) ∧
    read.Textures.next
      { header := { cubemapHeader with mipmap_levels := 2 },
        data := [9, 0, 0, 0, 7], next_level := 1 } =
      (some [7],
       { header := { cubemapHeader with mipmap_levels := 2 }, data := [],
         next_level := 2 }) :=
  ⟨(read_short_read_behavior.1 _ (by decide) (by decide) (by decide)).trans
      (by decide),
   ((read_short_read_behavior.2 _ 9 (by decide) (by decide) (by decide)
       (by decide)).1).trans (by decide)⟩

theorem lib_new_eq (data : List Nat) :
    lib.Ktx.new data = (KtxHeader.new data).map fun h =>
      lib.ofHeader h (data.drop (64 + h.bytes_of_key_value_data)) := by
  unfold lib.Ktx.new KtxHeader.new lib.ofHeader
  by_cases h1 : data.length < 64
  · rw [if_pos h1, if_pos h1]
    rfl
  · rw [if_neg h1, if_neg h1]
    by_cases h2 : data.take 12 ≠ KTX_IDENTIFIER
    · rw [if_pos h2, if_pos h2]
      rfl
    · rw [if_neg h2, if_neg h2]
      rfl

theorem lib_next_ge (t : lib.Textures)
    (h : t.parent.mipmap_levels ≤ t.next_level) :
    lib.Textures.next t = (none, t) := by
  simp only [lib.Textures.next]
  rw [if_pos (by omega)]

theorem lib_slice_collect (h : KtxHeader) (data : List Nat) (s : Nat)
    (hnc : ¬ (h.array_elements = 0 ∧ h.faces = 6)) :
    ∀ (n i p q : Nat), q = 64 + h.bytes_of_key_value_data + p →
      lib.collect n
        { parent := lib.ofHeader h
            (data.drop (64 + h.bytes_of_key_value_data)),
          next_level := i, level_end := p } =
      (slice.collect n
        { parent := { header := h, ktx_data := data, texture_start := s },
          next_level := i, level_end := q }).map Texture.deref
  | 0, i, p, q, hq => by
    simp [lib.collect, slice.collect]
  | n + 1, i, p, q, hq => by
    by_cases hg : h.mipmap_levels ≤ i
    · have e1 := lib_next_ge
        { parent := lib.ofHeader h
            (data.drop (64 + h.bytes_of_key_value_data)),
          next_level := i, level_end := p }
        (by simp [lib.ofHeader]; omega)
      have e2 := slice_next_ge
        { parent := { header := h, ktx_data := data, texture_start := s },
          next_level := i, level_end := q } (by simpa using hg)
      simp only [lib.collect, slice.collect, e1, e2]
      rfl
    · have hlr : readU32 h.big_endian
          ((data.drop (64 + h.bytes_of_key_value_data)).drop p) =
          readU32 h.big_endian (data.drop q) := by
        rw [List.drop_drop, hq]
      have e1 : lib.Textures.next
          { parent := lib.ofHeader h
              (data.drop (64 + h.bytes_of_key_value_data)),
            next_level := i, level_end := p } =
          (some (subrange (data.drop (64 + h.bytes_of_key_value_data))
              (p + 4) (p + 4 + readU32 h.big_endian (data.drop q))),
           { parent := lib.ofHeader h
               (data.drop (64 + h.bytes_of_key_value_data)),
             next_level := i + 1,
             level_end := p + 4 + readU32 h.big_endian (data.drop q) }) := by
        simp only [lib.Textures.next, lib.ofHeader]
        rw [if_neg (by omega), hlr]
      have e2 : slice.Textures.next
          { parent := { header := h, ktx_data := data, texture_start := s },
            next_level := i, level_end := q } =
          (some (Texture.TwoDim (subrange data (q + 4)
              (q + 4 + readU32 h.big_endian (data.drop q)))),
           { parent := { header := h, ktx_data := data, texture_start := s },
             next_level := i + 1,
             level_end := q + 4 + readU32 h.big_endian (data.drop q) }) := by
        simp only [slice.Textures.next]
        rw [if_neg (by simpa using hg), if_neg (by simpa using hnc)]
      have hhead : subrange (data.drop (64 + h.bytes_of_key_value_data))
          (p + 4) (p + 4 + readU32 h.big_endian (data.drop q)) =
          subrange data (q + 4)
            (q + 4 + readU32 h.big_endian (data.drop q)) := by
        unfold subrange
        rw [List.drop_drop]
        exact take_drop_congr _ (by omega) (by omega)
      have htail := lib_slice_collect h data s hnc n (i + 1)
        (p + 4 + readU32 h.big_endian (data.drop q))
        (q + 4 + readU32 h.big_endian (data.drop q)) (by omega)
      simp only [lib.collect, slice.collect, e1, e2, List.map_cons,
        Texture.deref, htail, hhead]

/-- C10. The two borrowed-view implementations agree off the cubemap case:
on any buffer both accessors accept, if the parsed header does not have
array_elements = 0 and faces = 6, then for every n the first n level slices
of the lib.rs iterator equal, byte for byte, the derefs of the first n
textures of the slice.rs iterator; and they genuinely diverge on a cubemap
container, where only the slice implementation multiplies the stored length
by 6. -/
theorem lib_slice_equiv :
    (∀ (data : List Nat) (kl : lib.Ktx) (ks : slice.Ktx),
      lib.Ktx.new data = some kl →
      slice.Ktx.new data = some ks →
      ¬ (ks.header.array_elements = 0 ∧ ks.header.faces = 6) →
      ∀ n, lib.collect n (lib.Ktx.textures kl) =
        (slice.collect n (slice.Ktx.textures ks)).map Texture.deref) ∧
    (∃ (data : List Nat) (kl : lib.Ktx) (ks : slice.Ktx),
      lib.Ktx.new data = some kl ∧ slice.Ktx.new data = some ks ∧
      ks.header.array_elements = 0 ∧ ks.header.faces = 6 ∧
      lib.collect 1 (lib.Ktx.textures kl) ≠
        (slice.collect 1 (slice.Ktx.textures ks)).map Texture.deref) := by
  constructor
  · intro data kl ks hkl hks hnc n
    rw [lib_new_eq] at hkl
    cases hh : KtxHeader.new data with
    | none =>
      rw [hh] at hkl
      exact absurd hkl (by simp)
    | some h =>
      rw [hh] at hkl
      simp only [Option.map_some', Option.some.injEq] at hkl
      simp only [slice.Ktx.new, hh, Option.map_some', Option.some.injEq] at hks
      subst hkl
      subst hks
      simp only at hnc
      simp only [lib.Ktx.textures, slice.Ktx.textures]
      exact lib_slice_collect h data _ hnc n 0 0 _ (by omega)
  · refine ⟨KtxHeader.write cubemapHeader ++ [1, 0, 0, 0, 1, 2, 3, 4, 5, 6],
      lib.ofHeader cubemapHeader [1, 0, 0, 0, 1, 2, 3, 4, 5, 6],
      { header := cubemapHeader,
        ktx_data := KtxHeader.write cubemapHeader ++
          [1, 0, 0, 0, 1, 2, 3, 4, 5, 6],
        texture_start := 64 },
      by decide, by decide, by decide, by decide, by decide⟩

/-- Witness for C10 at a concrete non-cubemap container. -/
theorem lib_slice_equiv_witness :
    lib.collect 1 (lib.Ktx.textures
        (lib.ofHeader flatHeader [2, 0, 0, 0, 7, 9])) =
      (slice.collect 1 (slice.Ktx.textures
        { header := flatHeader, ktx_data := flatData,
          texture_start := 64 })).map Texture.deref :=
  lib_slice_equiv.1 flatData _ _ (by decide) (by decide) (by decide) 1

theorem slice_collect_blocks (h : KtxHeader)
    (hcube : h.faces = 6 → h.array_elements = 0)
    (hfc : h.faces = 1 ∨ h.faces = 6) :
    ∀ (lvls : List (List Nat)) (D pre : List Nat) (i s : Nat),
      D = pre ++ (lvls.map (levelBlock h.big_endian h.faces)).flatten →
      (∀ lv ∈ lvls, lv.length < 4294967296 ∧ h.faces ∣ lv.length) →
      i + lvls.length ≤ h.mipmap_levels →
      (slice.collect lvls.length
        { parent := { header := h, ktx_data := D, texture_start := s },
          next_level := i, level_end := pre.length }).map Texture.deref = lvls
  | [], D, pre, i, s, hD, hlv, hmip => by simp [slice.collect]
  | lv :: rest, D, pre, i, s, hD, hlv, hmip => by
    obtain ⟨hlen, hdvd⟩ := hlv lv (by simp)
    have hi : ¬ i ≥ h.mipmap_levels := by simp at hmip; omega
    have hD2 : D = (pre ++ writeU32 h.big_endian
        (lv.length % 4294967296 / h.faces)) ++
        (lv ++ (rest.map (levelBlock h.big_endian h.faces)).flatten) := by
      rw [hD]
      simp only [List.map_cons, List.flatten_cons, levelBlock]
      simp [List.append_assoc]
    have hplen2 : (pre ++ writeU32 h.big_endian
        (lv.length % 4294967296 / h.faces)).length = pre.length + 4 := by
      simp [writeU32_length]
    have hL : readU32 h.big_endian (D.drop pre.length) =
        lv.length / h.faces := by
      rw [hD, List.drop_left]
      simp only [List.map_cons, List.flatten_cons, levelBlock]
      rw [List.append_assoc, readU32_writeU32, Nat.mod_eq_of_lt hlen]
      exact Nat.mod_eq_of_lt (lt_of_le_of_lt (Nat.div_le_self _ _) hlen)
    have hpay : subrange D (pre.length + 4) (pre.length + 4 + lv.length) =
        lv := by
      rw [hD2]
      unfold subrange
      rw [List.drop_left' hplen2,
        show pre.length + 4 + lv.length - (pre.length + 4) = lv.length from
          by omega]
      exact List.take_left' rfl
    have hDrec : D = ((pre ++ writeU32 h.big_endian
        (lv.length % 4294967296 / h.faces)) ++ lv) ++
        (rest.map (levelBlock h.big_endian h.faces)).flatten := by
      rw [hD2]
      simp [List.append_assoc]
    have hprelen : ((pre ++ writeU32 h.big_endian
        (lv.length % 4294967296 / h.faces)) ++ lv).length =
        pre.length + 4 + lv.length := by
      rw [List.length_append, List.length_append, writeU32_length]
    have hIH := slice_collect_blocks h hcube hfc rest D
      ((pre ++ writeU32 h.big_endian (lv.length % 4294967296 / h.faces)) ++ lv)
      (i + 1) s hDrec (fun x hx => hlv x (by simp [hx]))
      (by simp at hmip ⊢; omega)
    rw [hprelen] at hIH
    rcases hfc with hf1 | hf6
    · have hnc : ¬ (h.array_elements = 0 ∧ h.faces = 6) := by
        rw [hf1]
        simp
      have e1 : slice.Textures.next
          { parent := { header := h, ktx_data := D, texture_start := s },
            next_level := i, level_end := pre.length } =
          (some (Texture.TwoDim (subrange D (pre.length + 4)
              (pre.length + 4 + lv.length))),
           { parent := { header := h, ktx_data := D, texture_start := s },
             next_level := i + 1,
             level_end := pre.length + 4 + lv.length }) := by
        simp only [slice.Textures.next]
        rw [if_neg (by simpa using hi), if_neg (by simpa using hnc), hL, hf1,
          Nat.div_one]
      simp only [List.length_cons, slice.collect, e1, List.map_cons,
        Texture.deref]
      rw [hpay]
      simp only [List.cons.injEq]
      exact ⟨trivial, hIH⟩
    · have hc : h.array_elements = 0 ∧ h.faces = 6 := ⟨hcube hf6, hf6⟩
      have h6L : 6 * (lv.length / h.faces) = lv.length := by
        rw [hf6] at hdvd ⊢
        exact Nat.mul_div_cancel' hdvd
      have e1 : slice.Textures.next
            { parent := { header := h, ktx_data := D, texture_start := s },
              next_level := i, level_end := pre.length } =
          (some (Texture.Cubemap (subrange D (pre.length + 4)
              (pre.length + 4 + 6 * (lv.length / h.faces)))
              (subrange D (pre.length + 4)
                (pre.length + 4 + lv.length / h.faces))
              (subrange D (pre.length + 4 + lv.length / h.faces)
                (pre.length + 4 + lv.length / h.faces * 2))
              (subrange D (pre.length + 4 + lv.length / h.faces * 2)
                (pre.length + 4 + lv.length / h.faces * 3))
              (subrange D (pre.length + 4 + lv.length / h.faces * 3)
                (pre.length + 4 + lv.length / h.faces * 4))
              (subrange D (pre.length + 4 + lv.length / h.faces * 4)
                (pre.length + 4 + lv.length / h.faces * 5))
              (subrange D (pre.length + 4 + lv.length / h.faces * 5)
                (pre.length + 4 + lv.length / h.faces * 6))),
           { parent := { header := h, ktx_data := D, texture_start := s },
             next_level := i + 1,
             level_end := pre.length + 4 + 6 * (lv.length / h.faces) }) := by
        simp only [slice.Textures.next]
        rw [if_neg (by simpa using hi), if_pos hc, hL]
      simp only [List.length_cons, slice.collect, e1, List.map_cons,
        Texture.deref]
      rw [h6L, hpay]
      simp only [List.cons.injEq]
      exact ⟨trivial, hIH⟩

set_option maxHeartbeats 1000000 in
/-- Counterexample for C5 as stated: three builder inputs, each with a header
whose face count is in {1, 6} and level payload lengths exact multiples of
the face count, where walking the built buffer with the slice accessor does
not reproduce the levels: (a) bytes_of_key_value_data = 1, for which the
builder emits no metadata bytes but the walker skips one; (b) mipmap_levels
= 2 with a single level, for which the walker reads a second, garbage level;
(c) faces = 6 with array_elements = 1 (a cubemap array), for which the
builder divides the prefix by 6 but the walker does not multiply by 6. -/
theorem builder_walk_counterexample :
    ((slice.Ktx.new (KtxBuilder.to_vec
        { flatHeader with big_endian := true, bytes_of_key_value_data := 1 }
        [[7]])).map fun k =>
      (slice.collect k.header.mipmap_levels (slice.Ktx.textures k)).map
        Texture.deref) ≠ some [[7]] ∧
    ((slice.Ktx.new (KtxBuilder.to_vec
        { flatHeader with mipmap_levels := 2 } [[7]])).map fun k =>
      (slice.collect k.header.mipmap_levels (slice.Ktx.textures k)).map
        Texture.deref) ≠ some [[7]] ∧
    ((slice.Ktx.new (KtxBuilder.to_vec
        { flatHeader with faces := 6, array_elements := 1 }
        [[1, 2, 3, 4, 5, 6]])).map fun k =>
      (slice.collect k.header.mipmap_levels (slice.Ktx.textures k)).map
        Texture.deref) ≠ some [[1, 2, 3, 4, 5, 6]] := by
  refine ⟨by decide, by decide, by decide⟩

/-- C5 (amended). Builder/walker round-trip on consistent input: for a
u32-representable header with face count in {1, 6} which is a plain cubemap
when faces = 6 (array_elements = 0), no key/value bytes (the builder writes
none), and mipmap_levels equal to the number of levels, with each level
payload shorter than 2^32 and its length an exact multiple of the face
count, re-parsing the built buffer recovers the header, and walking it with
the slice accessor reproduces the original level payloads in order. -/
theorem builder_walk_roundtrip (h : KtxHeader) (levels : List (List Nat))
    (hw : h.wf)
    (hfc : h.faces = 1 ∨ h.faces = 6)
    (hcube : h.faces = 6 → h.array_elements = 0)
    (hkv : h.bytes_of_key_value_data = 0)
    (hmip : h.mipmap_levels = levels.length)
    (hlev : ∀ lv ∈ levels, lv.length < 4294967296 ∧ h.faces ∣ lv.length) :
    slice.Ktx.new (KtxBuilder.to_vec h levels) =
      some { header := h, ktx_data := KtxBuilder.to_vec h levels,
             texture_start := 64 } ∧
    (slice.collect h.mipmap_levels (slice.Ktx.textures
        { header := h, ktx_data := KtxBuilder.to_vec h levels,
          texture_start := 64 })).map Texture.deref = levels := by
  have hnew : KtxHeader.new (KtxBuilder.to_vec h levels) = some h := by
    rw [to_vec_eq]
    exact (KtxHeader.new_append _ _ h.write_length).trans (KtxHeader.new_write h hw)
  constructor
  · simp [slice.Ktx.new, hnew, hkv]
  · simp only [slice.Ktx.textures]
    rw [hmip, show (64 : Nat) = h.write.length from h.write_length.symm]
    exact slice_collect_blocks h hcube hfc levels _ h.write 0 _ (to_vec_eq h levels)
      hlev (by omega)

/-- Witness for the amended C5: a two-level flat container and a one-level
cubemap container both round-trip. -/
theorem builder_walk_roundtrip_witness :
    ((slice.collect flatHeader2.mipmap_levels (slice.Ktx.textures
        { header := flatHeader2,
          ktx_data := KtxBuilder.to_vec flatHeader2 [[1, 2, 3], [4, 5]],
          texture_start := 64 })).map Texture.deref = [[1, 2, 3], [4, 5]]) ∧
    ((slice.collect cubemapHeader.mipmap_levels (slice.Ktx.textures
        { header := cubemapHeader,
          ktx_data := KtxBuilder.to_vec cubemapHeader [[1, 2, 3, 4, 5, 6]],
          texture_start := 64 })).map Texture.deref = [[1, 2, 3, 4, 5, 6]]) :=
  ⟨(builder_walk_roundtrip flatHeader2 [[1, 2, 3], [4, 5]] (by decide)
      (by decide) (by decide) (by decide) (by decide) (by decide)).2,
   (builder_walk_roundtrip cubemapHeader [[1, 2, 3, 4, 5, 6]] (by decide)
      (by decide) (by decide) (by decide) (by decide) (by decide)).2⟩

/-- Witness for C8: the level-0 payload is unchanged when the 3 junk
metadata bytes are replaced by different ones. -/
theorem slice_metadata_skip_witness :
    (slice.Textures.next (slice.Ktx.textures
        { header := kvHeader,
          ktx_data := KtxHeader.write kvHeader ++
            ([9, 9, 9] ++ [2, 0, 0, 0, 7, 8]),
          texture_start := 64 + kvHeader.bytes_of_key_value_data })).1 =
      (slice.Textures.next (slice.Ktx.textures
        { header := kvHeader,
          ktx_data := KtxHeader.write kvHeader ++
            ([5, 5, 5] ++ [2, 0, 0, 0, 7, 8]),
          texture_start := 64 + kvHeader.bytes_of_key_value_data })).1 :=
  (slice_metadata_skip kvHeader (KtxHeader.write kvHeader) [9, 9, 9] [5, 5, 5]
      [2, 0, 0, 0, 7, 8] (by decide) (by decide) (by decide) (by decide)
      (by decide)).2.2
